import Mathlib

set_option maxRecDepth 40000
set_option linter.unusedVariables false

/-!
Shallow embedding of the block-rebuffering audio bridge of the
`bevy_glicol` repository.

The repository contains two textually near-identical audio output
callbacks (one in `bevy_glicol/src/prelude.rs`, one in
`tui_glicol/src/app.rs`).  Each callback receives a mutable interleaved
output buffer `data : &mut [T]` from cpal, computes
`block_step = data.len() / channels` with `channels = 2` hard-coded,
drains the carry-over tail of the previously produced engine block, and
then repeatedly pulls `BLOCK_SIZE = 128`-frame blocks from the shared
glicol engine until `block_step` frames have been written, storing the
unconsumed suffix of the last block as the new carry-over.

Modelling conventions:
* A produced block `block : Nat → Nat → α` maps a channel index and a
  sample index to a sample value; the source's
  `&[glicol_synth::Buffer<BLOCK_SIZE>; 2]` is a two-channel array of
  `BLOCK_SIZE` f32 samples and every access the callback performs uses
  channel indices `< 2` and sample indices `< BLOCK_SIZE`, so a total
  function loses no information.
* The engine behind the mutex is an opaque stateful block producer
  `produce : ε → (Nat → Nat → α) × ε` (the source's
  `engine_clone.lock()` followed by `e.next_block(vec![])`).  In the
  sequential model lock acquisition always succeeds; this is the only
  point where the two callback sites differ textually
  (`parking_lot::Mutex::lock` versus `std::sync::Mutex::lock().unwrap()`).
* `conv : α → β` models the per-sample conversion `T::from_sample`
  applied by `write_samples`.
* Writes into the cpal buffer are recorded as an ordered list of
  `(index, value)` stores.  Rust's `data[idx] = v` panics when
  `idx ≥ data.len()`; a callback invocation "panics" in the model when
  its store list contains an index `≥ dataLen`, and `runCallback`
  returns `none` in that case.
-/

/-- Carry-over state owned by the audio callback closure: the most
recently produced block (`prev_block`) and the cursor `prev_block_pos`
marking the first unconsumed sample index. -/
structure CbState (α : Type) where
  prevBlock : Nat → Nat → α
  prevBlockPos : Nat

/-- Result of the production `while` loop: stores emitted, the
carry-over block and cursor it leaves behind, the engine state after the
loop, and how many times `next_block` was called. -/
structure ProdResult (α β ε : Type) where
  stores : List (Nat × β)
  prev : Nat → Nat → α
  pos : Nat
  env : ε
  calls : Nat

/-- Result of one whole callback invocation. -/
structure CbResult (α β ε : Type) where
  stores : List (Nat × β)
  state : CbState α
  env : ε
  calls : Nat

namespace BevyGlicol

variable {α β ε : Type}

/-- The compile-time block size, `const BLOCK_SIZE: usize = 128;`
(bevy_glicol/src/prelude.rs:12). -/
def BLOCK_SIZE : Nat := 128

/-- Stream channel count chosen at setup:
`let channels = 2_usize; //config.channels as usize;`
(prelude.rs:56) — the device-config channel count is ignored. -/
def streamChannels (configChannels : Nat) : Nat := 2

/-- The `write_samples` closure (prelude.rs:76-82): for
`chan in 0..channels` store `T::from_sample(block[chan][i])` at
`data[sample_i * channels + chan]`, with `channels = 2`. -/
def writeSamples (conv : α → β) (block : Nat → Nat → α) (sampleI i : Nat) :
    List (Nat × β) :=
  (List.range 2).map (fun chan => (sampleI * 2 + chan, conv (block chan i)))

/-- A run of consecutive frame writes: frames are written at output
frame positions `writes, writes+1, ...` reading block sample indices
`start, start+1, ...` for `count` frames.  The drain loop
(prelude.rs:91-94) is `copyFrames conv prev 0 pos (BLOCK_SIZE - pos)`;
the production loop's block copies (prelude.rs:102-105 and 108-111) are
`copyFrames conv block writes 0 BLOCK_SIZE` and
`copyFrames conv block writes 0 (block_step - writes)`. -/
def copyFrames (conv : α → β) (block : Nat → Nat → α) :
    Nat → Nat → Nat → List (Nat × β)
  | writes, start, 0 => []
  | writes, start, count + 1 =>
      writeSamples conv block writes start ++
        copyFrames conv block (writes + 1) (start + 1) count

/-- The production `while writes < block_step` loop (prelude.rs:97-118),
written with an explicit fuel argument so that the recursion is
structural; `none` is returned only when the fuel runs out, and
`prodLoopF_isSome` below shows that the fuel `blockStep + 1` used by
`runCallbackCore` always suffices (each full-block iteration advances
`writes` by `blockSize ≥ 1`).  One iteration: lock the engine and call
`next_block` (`produce env`); if `writes + BLOCK_SIZE <= block_step`
copy the whole block, else copy the first `block_step - writes` frames,
store the block as the new carry-over with cursor `block_step - writes`,
and break. -/
def prodLoopF (conv : α → β) (produce : ε → (Nat → Nat → α) × ε)
    (blockSize blockStep : Nat) :
    Nat → Nat → ε → (Nat → Nat → α) → Option (ProdResult α β ε)
  | 0, _, _, _ => none
  | fuel + 1, writes, env, prev =>
      if writes < blockStep then
        let pr := produce env
        if writes + blockSize ≤ blockStep then
          match prodLoopF conv produce blockSize blockStep fuel
              (writes + blockSize) pr.2 prev with
          | none => none
          | some r =>
              some ⟨copyFrames conv pr.1 writes 0 blockSize ++ r.stores,
                r.prev, r.pos, r.env, r.calls + 1⟩
        else
          some ⟨copyFrames conv pr.1 writes 0 (blockStep - writes),
            pr.1, blockStep - writes, pr.2, 1⟩
      else
        some ⟨[], prev, blockSize, env, 0⟩

/-- One audio callback invocation (prelude.rs:73-119), ignoring bounds:
`block_step = data.len() / channels`; drain the carry-over tail
unconditionally (`for i in prev_block_pos..BLOCK_SIZE`, prelude.rs:91-94
— note the source has no `writes < block_step` guard here); set
`prev_block_pos = BLOCK_SIZE`; then run the production loop.  The
`none` fallback branch is unreachable (`prodLoopF_isSome`). -/
def runCallbackCore (conv : α → β) (produce : ε → (Nat → Nat → α) × ε)
    (blockSize : Nat) (env : ε) (dataLen : Nat) (st : CbState α) :
    CbResult α β ε :=
  let blockStep := dataLen / 2
  let drain := copyFrames conv st.prevBlock 0 st.prevBlockPos
    (blockSize - st.prevBlockPos)
  let writes := blockSize - st.prevBlockPos
  match prodLoopF conv produce blockSize blockStep (blockStep + 1) writes env
      st.prevBlock with
  | some r => ⟨drain ++ r.stores, ⟨r.prev, r.pos⟩, r.env, r.calls⟩
  | none => ⟨drain, ⟨st.prevBlock, blockSize⟩, env, 0⟩

/-- One audio callback invocation with Rust's bounds checking made
explicit: `data[idx] = v` panics when `idx ≥ data.len()`, so the
invocation succeeds exactly when every store index is `< dataLen`. -/
def runCallback (conv : α → β) (produce : ε → (Nat → Nat → α) × ε)
    (blockSize : Nat) (env : ε) (dataLen : Nat) (st : CbState α) :
    Option (CbResult α β ε) :=
  let r := runCallbackCore conv produce blockSize env dataLen st
  if r.stores.all (fun s => decide (s.1 < dataLen)) then some r else none

/-- A sequence of callback invocations with buffer lengths `dataLens`,
threading the carry-over state and the engine state; records each
invocation's stores and exit cursor, and the total number of
`next_block` calls.  `none` as soon as one invocation panics. -/
def runSeq (conv : α → β) (produce : ε → (Nat → Nat → α) × ε)
    (blockSize : Nat) :
    List Nat → ε → CbState α →
      Option (List (List (Nat × β) × Nat) × CbState α × ε × Nat)
  | [], env, st => some ([], st, env, 0)
  | d :: ds, env, st =>
      match runCallback conv produce blockSize env d st with
      | none => none
      | some r =>
          match runSeq conv produce blockSize ds r.env r.state with
          | none => none
          | some (outs, st', env', c) =>
              some ((r.stores, r.state.prevBlockPos) :: outs, st', env',
                r.calls + c)

/-- Initial carry-over state (prelude.rs:63, 69): `prev_block` is
`[Buffer::SILENT; 2]` (every sample is the zero value `z`) and
`prev_block_pos = BLOCK_SIZE`, i.e. the carry-over starts fully
exhausted. -/
def initState (z : α) (blockSize : Nat) : CbState α :=
  ⟨fun _ _ => z, blockSize⟩

/-- An engine whose successive `next_block` calls return
`blocks 0, blocks 1, ...`: the state is the count of blocks produced so
far. -/
def produceStream (blocks : Nat → Nat → Nat → α) :
    Nat → (Nat → Nat → α) × Nat :=
  fun k => (blocks k, k + 1)

/-- All-silent engine output, used for concrete evaluations. -/
def zeroBlocks : Nat → Nat → Nat → Nat := fun _ _ _ => 0

/-- Concrete engine output used for the spec's carry-over boundary
example: block `k` holds sample `100*(k+1) + 10*chan + i` at channel
`chan`, index `i`, so every sample value is distinct. -/
def blocksC4 : Nat → Nat → Nat → Nat := fun k ch i => 100 * (k + 1) + 10 * ch + i

theorem writeSamples_eq (conv : α → β) (block : Nat → Nat → α) (s i : Nat) :
    writeSamples conv block s i =
      [(s * 2, conv (block 0 i)), (s * 2 + 1, conv (block 1 i))] := rfl

theorem copyFrames_length (conv : α → β) (block : Nat → Nat → α) :
    ∀ w s c, (copyFrames conv block w s c).length = c * 2 := by
  intro w s c
  induction c generalizing w s with
  | zero => rfl
  | succ c ih =>
      simp only [copyFrames, writeSamples_eq, List.length_append, List.length_cons,
        List.length_nil, ih]
      omega

theorem copyFrames_map_fst (conv : α → β) (block : Nat → Nat → α) :
    ∀ w s c, (copyFrames conv block w s c).map Prod.fst = List.range' (w * 2) (c * 2) := by
  intro w s c
  induction c generalizing w s with
  | zero => rfl
  | succ c ih =>
      rw [show (c + 1) * 2 = c * 2 + 1 + 1 by omega, List.range'_succ, List.range'_succ,
        show w * 2 + 1 + 1 = (w + 1) * 2 by omega]
      simp only [copyFrames, writeSamples_eq, List.map_append, List.map_cons, List.map_nil, ih]
      rfl

/-- Fuel sufficiency for the production loop: with positive block size
and fuel exceeding the outstanding demand, the loop never exhausts its
fuel (the `none` case of `prodLoopF` is unreachable as used). -/
theorem prodLoopF_isSome (conv : α → β) (produce : ε → (Nat → Nat → α) × ε)
    (blockSize blockStep : Nat) (hbs : 0 < blockSize) :
    ∀ fuel writes env prev, 0 < fuel → blockStep < writes + fuel →
      (prodLoopF conv produce blockSize blockStep fuel writes env prev).isSome = true := by
  intro fuel
  induction fuel with
  | zero => intro writes env prev h0 _; omega
  | succ fuel ih =>
      intro writes env prev _ hlt
      simp only [prodLoopF]
      by_cases h1 : writes < blockStep
      · rw [if_pos h1]
        by_cases h2 : writes + blockSize ≤ blockStep
        · rw [if_pos h2]
          have hrec := ih (writes + blockSize) (produce env).2 prev (by omega) (by omega)
          cases hr : prodLoopF conv produce blockSize blockStep fuel
              (writes + blockSize) (produce env).2 prev with
          | none => rw [hr] at hrec; simp at hrec
          | some r => simp
        · rw [if_neg h2]; simp
      · rw [if_neg h1]; simp

/-- The production loop leaves the cursor either at `blockSize` (carry
fully exhausted) or strictly between `0` and `blockSize` (a partial
block stored at the tail). -/
theorem prodLoopF_pos (conv : α → β) (produce : ε → (Nat → Nat → α) × ε)
    (blockSize blockStep : Nat) :
    ∀ fuel writes env prev r,
      prodLoopF conv produce blockSize blockStep fuel writes env prev = some r →
      r.pos = blockSize ∨ (0 < r.pos ∧ r.pos < blockSize) := by
  intro fuel
  induction fuel with
  | zero => intro writes env prev r h; simp [prodLoopF] at h
  | succ fuel ih =>
      intro writes env prev r h
      simp only [prodLoopF] at h
      by_cases h1 : writes < blockStep
      · rw [if_pos h1] at h
        by_cases h2 : writes + blockSize ≤ blockStep
        · rw [if_pos h2] at h
          cases hr : prodLoopF conv produce blockSize blockStep fuel
              (writes + blockSize) (produce env).2 prev with
          | none => rw [hr] at h; simp at h
          | some r' =>
              rw [hr] at h
              simp only [Option.some.injEq] at h
              have := ih (writes + blockSize) (produce env).2 prev r' hr
              rw [← h]
              simpa using this
        · rw [if_neg h2] at h
          simp only [Option.some.injEq] at h
          rw [← h]
          right
          constructor
          · simp only []; omega
          · simp only []; omega
      · rw [if_neg h1] at h
        simp only [Option.some.injEq] at h
        rw [← h]
        left
        rfl

/-- The production loop calls `next_block` at least once exactly when
there is still demand left when it is entered. -/
theorem prodLoopF_calls (conv : α → β) (produce : ε → (Nat → Nat → α) × ε)
    (blockSize blockStep : Nat) :
    ∀ fuel writes env prev r,
      prodLoopF conv produce blockSize blockStep fuel writes env prev = some r →
      (1 ≤ r.calls ↔ writes < blockStep) := by
  intro fuel writes env prev r h
  cases fuel with
  | zero => simp [prodLoopF] at h
  | succ fuel =>
      simp only [prodLoopF] at h
      by_cases h1 : writes < blockStep
      · rw [if_pos h1] at h
        by_cases h2 : writes + blockSize ≤ blockStep
        · rw [if_pos h2] at h
          cases hr : prodLoopF conv produce blockSize blockStep fuel
              (writes + blockSize) (produce env).2 prev with
          | none => rw [hr] at h; simp at h
          | some r' =>
              rw [hr] at h
              simp only [Option.some.injEq] at h
              rw [← h]
              simp only []
              omega
        · rw [if_neg h2] at h
          simp only [Option.some.injEq] at h
          rw [← h]
          simp only []
          omega
      · rw [if_neg h1] at h
        simp only [Option.some.injEq] at h
        rw [← h]
        simp only []
        omega

/-- Store indices emitted by the production loop are consecutive,
starting right after the last drained frame. -/
theorem prodLoopF_map_fst (conv : α → β) (produce : ε → (Nat → Nat → α) × ε)
    (blockSize blockStep : Nat) :
    ∀ fuel writes env prev r,
      prodLoopF conv produce blockSize blockStep fuel writes env prev = some r →
      r.stores.map Prod.fst = List.range' (writes * 2) r.stores.length := by
  intro fuel
  induction fuel with
  | zero => intro writes env prev r h; simp [prodLoopF] at h
  | succ fuel ih =>
      intro writes env prev r h
      simp only [prodLoopF] at h
      by_cases h1 : writes < blockStep
      · rw [if_pos h1] at h
        by_cases h2 : writes + blockSize ≤ blockStep
        · rw [if_pos h2] at h
          cases hr : prodLoopF conv produce blockSize blockStep fuel
              (writes + blockSize) (produce env).2 prev with
          | none => rw [hr] at h; simp at h
          | some r' =>
              rw [hr] at h
              simp only [Option.some.injEq] at h
              rw [← h]
              simp only [List.map_append, List.length_append,
                copyFrames_map_fst, copyFrames_length, ih _ _ _ _ hr]
              rw [show (writes + blockSize) * 2 = writes * 2 + blockSize * 2 by omega,
                List.range'_append_1, Nat.add_comm]
        · rw [if_neg h2] at h
          simp only [Option.some.injEq] at h
          rw [← h]
          simp [copyFrames_map_fst, copyFrames_length]
      · rw [if_neg h1] at h
        simp only [Option.some.injEq] at h
        rw [← h]
        rfl

/-- Unfolding of `runCallbackCore` through the (always reachable)
`some` branch of the production loop. -/
theorem runCallbackCore_eq (conv : α → β) (produce : ε → (Nat → Nat → α) × ε)
    (blockSize : Nat) (hbs : 0 < blockSize) (env : ε) (dataLen : Nat) (st : CbState α) :
    ∃ r, prodLoopF conv produce blockSize (dataLen / 2) (dataLen / 2 + 1)
        (blockSize - st.prevBlockPos) env st.prevBlock = some r ∧
      runCallbackCore conv produce blockSize env dataLen st =
        ⟨copyFrames conv st.prevBlock 0 st.prevBlockPos (blockSize - st.prevBlockPos) ++
            r.stores, ⟨r.prev, r.pos⟩, r.env, r.calls⟩ := by
  have hs := prodLoopF_isSome conv produce blockSize (dataLen / 2) hbs
    (dataLen / 2 + 1) (blockSize - st.prevBlockPos) env st.prevBlock
    (by omega) (by omega)
  cases hr : prodLoopF conv produce blockSize (dataLen / 2) (dataLen / 2 + 1)
      (blockSize - st.prevBlockPos) env st.prevBlock with
  | none => rw [hr] at hs; simp at hs
  | some r =>
      refine ⟨r, rfl, ?_⟩
      simp only [runCallbackCore, hr]

/-- Frame-level characterization of a copy run: frame number `w + j`
occupies output indices `(w+j)*2` and `(w+j)*2 + 1`, holding the
converted samples of block channels `0` and `1` at the same sample
index `s + j`. -/
theorem copyFrames_flatMap (conv : α → β) (block : Nat → Nat → α) :
    ∀ w s c, copyFrames conv block w s c =
      (List.range c).flatMap (fun j =>
        [((w + j) * 2, conv (block 0 (s + j))), ((w + j) * 2 + 1, conv (block 1 (s + j)))]) := by
  intro w s c
  induction c generalizing w s with
  | zero => rfl
  | succ c ih =>
      rw [List.range_succ_eq_map, List.flatMap_cons, List.flatMap_map]
      simp only [copyFrames, writeSamples_eq, ih, Nat.add_zero, Nat.add_succ, Nat.succ_add]

/-- C1: the claim states that for every sequence of positive callback
demands the samples written across the callbacks are exactly the first
`sum N_i` frames of the produced block stream, none skipped, duplicated
or reordered.  The code violates this: its drain loop
(prelude.rs:91-94) copies the whole carry-over without the spec's
`written < need` guard.  With `BLOCK_SIZE = 128` and five callbacks of
100 frames each (`data.len() = 200`), the carry-over remainder grows
(28, 56, 84, 112 frames) until the fifth callback attempts to drain 112
frames into a 100-frame buffer and indexes `data[200]` out of bounds —
a Rust panic, so the output is not the demanded prefix.  The first four
invocations succeed and leave the (reachable) cursor `prev_block_pos = 16`. -/
theorem callback_sequence_overflow_demo :
    (runSeq id (produceStream zeroBlocks) BLOCK_SIZE [200, 200, 200, 200] 0
        (initState 0 BLOCK_SIZE)).map (fun x => x.2.1.prevBlockPos) = some 16 ∧
    runSeq id (produceStream zeroBlocks) BLOCK_SIZE [200, 200, 200, 200, 200] 0
      (initState 0 BLOCK_SIZE) = none := ⟨rfl, rfl⟩

/-- C2: the claim states that every callback invocation writes exactly
the requested number of frames, regardless of the carry-over cursor at
entry.  Counterexample on the code: at the reachable entry cursor
`prev_block_pos = 16` (see `callback_sequence_overflow_demo`) with a
demand of 100 frames (`data.len() = 200`), the unguarded drain loop
emits 112 frames (224 stores) instead of 100, and the invocation
panics on the out-of-bounds store. -/
theorem callback_overfills_buffer_demo :
    (runCallbackCore id (produceStream zeroBlocks) BLOCK_SIZE 0 200
        ⟨fun _ _ => 0, 16⟩).stores.length = 224 ∧
    (224 : Nat) ≠ 2 * (200 / 2) ∧
    (runCallback id (produceStream zeroBlocks) BLOCK_SIZE 0 200
        ⟨fun _ _ => 0, 16⟩).isNone = true := ⟨rfl, by decide, rfl⟩

/-- C3: the claim states the drain phase copies a frame only while both
`position < BLOCK_SIZE` and `written < need` hold, so every store hits
an index below the buffer length.  The code's drain loop
(prelude.rs:91-94) has no `written < need` condition: at entry cursor
16 with `data.len() = 200` it emits a store at index 200 = `data.len()`,
the out-of-bounds (panicking) branch of the indexing. -/
theorem drain_out_of_bounds_store_demo :
    ((runCallbackCore id (produceStream zeroBlocks) BLOCK_SIZE 0 200
        ⟨fun _ _ => 0, 16⟩).stores.any (fun s => decide (200 ≤ s.1))) = true := rfl

/-- C4: when the remaining demand is strictly below the block size, the
production loop copies only the first `block_step - writes` frames of
the freshly produced block, stores that block as the carry-over with
cursor `block_step - writes`, and stops without producing another
block; and concretely, with block size 4, demands `[3, 3, 2]` and
blocks `B0, B1, B2`, the three invocations write frames
`[a,b,c]`, `[d,e,f]`, `[g,h]` (interleaved stereo stores shown), leave
cursors 3, 2 and 4, and call `next_block` exactly twice, so `B2` is
never produced. -/
theorem production_tail_partial_block :
    (∀ (α β ε : Type) (conv : α → β) (produce : ε → (Nat → Nat → α) × ε)
        (blockSize blockStep fuel writes : Nat) (env : ε) (prev : Nat → Nat → α),
      writes < blockStep → blockStep < writes + blockSize →
      prodLoopF conv produce blockSize blockStep (fuel + 1) writes env prev =
        some ⟨copyFrames conv (produce env).1 writes 0 (blockStep - writes),
          (produce env).1, blockStep - writes, (produce env).2, 1⟩) ∧
    ((runSeq id (produceStream blocksC4) 4 [6, 6, 4] 0 (initState 0 4)).map
        (fun x => (x.1, x.2.1.prevBlockPos, x.2.2.1, x.2.2.2)) =
      some ([([(0, 100), (1, 110), (2, 101), (3, 111), (4, 102), (5, 112)], 3),
             ([(0, 103), (1, 113), (2, 200), (3, 210), (4, 201), (5, 211)], 2),
             ([(0, 202), (1, 212), (2, 203), (3, 213)], 4)], 4, 2, 2)) := by
  constructor
  · intro α β ε conv produce blockSize blockStep fuel writes env prev h1 h2
    simp only [prodLoopF]
    rw [if_pos h1, if_neg (by omega)]
  · rfl

/-- Witness for `production_tail_partial_block`: its general conjunct
applied at block size 4, demand 3, a fresh loop entry. -/
theorem production_tail_partial_block_witness :
    prodLoopF id (produceStream blocksC4) 4 3 1 0 0 (fun _ _ => (0 : Nat)) =
      some ⟨copyFrames id (produceStream blocksC4 0).1 0 0 3,
        (produceStream blocksC4 0).1, 3, (produceStream blocksC4 0).2, 1⟩ :=
  production_tail_partial_block.1 Nat Nat Nat id (produceStream blocksC4) 4 3 0 0 0
    (fun _ _ => 0) (by decide) (by decide)

/-- C5: the carry-over cursor starts at `BLOCK_SIZE` (empty), and every
callback invocation leaves it either at `BLOCK_SIZE` (fully drained) or
at a value strictly between 0 and `BLOCK_SIZE` (a partial block stored
at the tail of the production phase); moreover the whole remaining
carry-over is drained — in order, first — before any block is produced
(the drained stores are an exact initial segment of the invocation's
stores). -/
theorem carry_cursor_invariant :
    (∀ (α : Type) (z : α), (initState z BLOCK_SIZE).prevBlockPos = BLOCK_SIZE) ∧
    (∀ (α β ε : Type) (conv : α → β) (produce : ε → (Nat → Nat → α) × ε)
        (env : ε) (dataLen : Nat) (st : CbState α),
      ((runCallbackCore conv produce BLOCK_SIZE env dataLen st).state.prevBlockPos =
          BLOCK_SIZE ∨
        (0 < (runCallbackCore conv produce BLOCK_SIZE env dataLen st).state.prevBlockPos ∧
          (runCallbackCore conv produce BLOCK_SIZE env dataLen st).state.prevBlockPos <
            BLOCK_SIZE)) ∧
      (runCallbackCore conv produce BLOCK_SIZE env dataLen st).stores.take
          ((BLOCK_SIZE - st.prevBlockPos) * 2) =
        copyFrames conv st.prevBlock 0 st.prevBlockPos (BLOCK_SIZE - st.prevBlockPos)) := by
  refine ⟨fun α z => rfl, fun α β ε conv produce env dataLen st => ?_⟩
  obtain ⟨r, hr, hcore⟩ :=
    runCallbackCore_eq conv produce BLOCK_SIZE (by decide) env dataLen st
  rw [hcore]
  constructor
  · simpa using prodLoopF_pos conv produce BLOCK_SIZE (dataLen / 2) _ _ _ _ r hr
  · exact List.take_left' (copyFrames_length conv st.prevBlock 0 st.prevBlockPos
      (BLOCK_SIZE - st.prevBlockPos))

/-- C6: a callback invocation calls `next_block` at least once exactly
when its demand (`data.len() / 2` frames) exceeds the number of
unconsumed carry-over frames at entry; in particular from the starting
state (cursor at `BLOCK_SIZE`, no carry-over) any demand of at least
one frame triggers at least one production call, and a carry-over
holding at least the demanded frames yields zero production calls. -/
theorem produce_iff_demand_exceeds_carry :
    ∀ (α β ε : Type) (conv : α → β) (produce : ε → (Nat → Nat → α) × ε)
      (env : ε) (dataLen : Nat) (st : CbState α),
      (1 ≤ (runCallbackCore conv produce BLOCK_SIZE env dataLen st).calls ↔
        BLOCK_SIZE - st.prevBlockPos < dataLen / 2) ∧
      (st.prevBlockPos = BLOCK_SIZE → 1 ≤ dataLen / 2 →
        1 ≤ (runCallbackCore conv produce BLOCK_SIZE env dataLen st).calls) := by
  intro α β ε conv produce env dataLen st
  obtain ⟨r, hr, hcore⟩ :=
    runCallbackCore_eq conv produce BLOCK_SIZE (by decide) env dataLen st
  rw [hcore]
  have hc := prodLoopF_calls conv produce BLOCK_SIZE (dataLen / 2) _ _ _ _ r hr
  constructor
  · simpa using hc
  · intro hpos hdl
    have hz : BLOCK_SIZE - st.prevBlockPos = 0 := by rw [hpos]; omega
    show 1 ≤ r.calls
    rw [hc, hz]
    omega

/-- Witness for `produce_iff_demand_exceeds_carry`: from the initial
state a demand of 128 frames triggers production. -/
theorem produce_iff_demand_exceeds_carry_witness :
    1 ≤ (runCallbackCore id (produceStream zeroBlocks) BLOCK_SIZE 0 256
        (initState 0 BLOCK_SIZE)).calls :=
  (produce_iff_demand_exceeds_carry Nat Nat Nat id (produceStream zeroBlocks) 0 256
    (initState 0 BLOCK_SIZE)).2 rfl (by decide)

/-- C7: the stream channel count is pinned to 2 no matter what the
device configuration says; every copied frame `w + j` writes exactly
the two interleaved stores `(w+j)*2` and `(w+j)*2 + 1`, converted from
block channels 0 and 1 at the same sample index; and a whole callback
invocation's store indices are precisely `0, 1, ..., len-1` in order,
i.e. frame `f` occupies output positions `2*f` and `2*f + 1`. -/
theorem stereo_interleaving_layout :
    (∀ configChannels : Nat, streamChannels configChannels = 2) ∧
    (∀ (α β : Type) (conv : α → β) (block : Nat → Nat → α) (w s c : Nat),
      copyFrames conv block w s c =
        (List.range c).flatMap (fun j =>
          [((w + j) * 2, conv (block 0 (s + j))),
           ((w + j) * 2 + 1, conv (block 1 (s + j)))])) ∧
    (∀ (α β ε : Type) (conv : α → β) (produce : ε → (Nat → Nat → α) × ε)
        (env : ε) (dataLen : Nat) (st : CbState α),
      (runCallbackCore conv produce BLOCK_SIZE env dataLen st).stores.map Prod.fst =
        List.range (runCallbackCore conv produce BLOCK_SIZE env dataLen st).stores.length) := by
  refine ⟨fun _ => rfl, fun α β conv block w s c => copyFrames_flatMap conv block w s c, ?_⟩
  intro α β ε conv produce env dataLen st
  obtain ⟨r, hr, hcore⟩ :=
    runCallbackCore_eq conv produce BLOCK_SIZE (by decide) env dataLen st
  rw [hcore]
  simp only [List.map_append, List.length_append]
  rw [copyFrames_map_fst, copyFrames_length,
    prodLoopF_map_fst conv produce BLOCK_SIZE (dataLen / 2) _ _ _ _ r hr]
  have happ := List.range'_append_1 0 ((BLOCK_SIZE - st.prevBlockPos) * 2) r.stores.length
  simp only [Nat.zero_add] at happ
  rw [Nat.zero_mul, happ, List.range_eq_range', Nat.add_comm]

end BevyGlicol

/-- The shared engine as seen by the bridge and the control thread: an
active signal graph plus opaque per-node dsp state.  The glicol engine
itself is an external crate; only its §6 interface contract is
modelled. -/
structure EngineM (γ σ : Type) where
  graph : γ
  dsp : σ

/-- Modelled from the spec: `glicol::Engine::update_with_code` lives in
the external glicol crate, not in this repository's source.  Per §6 it
replaces the active graph on success, and per §7 on failure "the
previously active graph remains in effect (no partial replacement)".
`compile` stands for the external patch-text compiler. -/
def engineUpdateWithCode {γ σ : Type} (compile : String → Except String γ)
    (e : EngineM γ σ) (code : String) : Except String (EngineM γ σ) :=
  match compile code with
  | Except.ok g => Except.ok ⟨g, e.dsp⟩
  | Except.error msg => Except.error msg

/-- Pulling one block advances only the dsp state, never the graph:
`next_block` through the §6 contract, with `step` the external
per-block computation. -/
def produceE {α γ σ : Type} (step : γ → σ → (Nat → Nat → α) × σ) :
    EngineM γ σ → (Nat → Nat → α) × EngineM γ σ :=
  fun e => ((step e.graph e.dsp).1, ⟨e.graph, (step e.graph e.dsp).2⟩)

namespace BevyGlicol

/-- GlicolEngine::update_with_code (prelude.rs:39-45): lock the engine,
apply the patch text, and on `Err` log
`"Failed to update Glicol code: ..."`.  Returns the engine left behind
the mutex together with the error-log lines emitted. -/
def glicolUpdateWithCode {γ σ : Type} (compile : String → Except String γ)
    (e : EngineM γ σ) (code : String) : EngineM γ σ × List String :=
  match engineUpdateWithCode compile e code with
  | Except.ok e' => (e', [])
  | Except.error msg => (e, ["Failed to update Glicol code: " ++ msg])

end BevyGlicol

namespace TuiApp

/-- The `Action::UpdateAudioCode` handler (tui_glicol/src/app.rs:254-261):
lock the engine, apply the patch; only when `update_with_code` returns
`Ok` is the graph component's node count refreshed — the `Err` case
does nothing.  Returns the engine left behind the mutex and the graph
component's node count. -/
def appUpdateAudioCode {γ σ : Type} (compile : String → Except String γ)
    (nodeCount : γ → Nat) (e : EngineM γ σ) (gcNodes : Nat) (code : String) :
    EngineM γ σ × Nat :=
  match engineUpdateWithCode compile e code with
  | Except.ok e' => (e', nodeCount e'.graph)
  | Except.error _ => (e, gcNodes)

end TuiApp

/-- C9: when applying a patch fails, the failure stays on the control
thread — the bevy handler only logs it and the tui handler only skips
the node-count refresh — and it is not propagated to the audio stream:
the engine (graph and dsp state) behind the mutex is exactly the one
from before the failed application, the callback's carry-over state is
untouched (the handlers never receive it), and a subsequent callback
run from any carry-over state produces exactly what it would have
produced without the failed application. -/
theorem patch_failure_is_local :
    ∀ (γ σ : Type) (compile : String → Except String γ) (e : EngineM γ σ)
      (code msg : String),
      compile code = Except.error msg →
      BevyGlicol.glicolUpdateWithCode compile e code =
        (e, ["Failed to update Glicol code: " ++ msg]) ∧
      (∀ (nodeCount : γ → Nat) (gcNodes : Nat),
        TuiApp.appUpdateAudioCode compile nodeCount e gcNodes code = (e, gcNodes)) ∧
      (∀ (α β : Type) (conv : α → β) (step : γ → σ → (Nat → Nat → α) × σ)
          (dataLen : Nat) (st : CbState α),
        BevyGlicol.runCallbackCore conv (produceE step) BevyGlicol.BLOCK_SIZE
            (BevyGlicol.glicolUpdateWithCode compile e code).1 dataLen st =
          BevyGlicol.runCallbackCore conv (produceE step) BevyGlicol.BLOCK_SIZE
            e dataLen st) := by
  intro γ σ compile e code msg h
  have hup : engineUpdateWithCode compile e code = Except.error msg := by
    simp [engineUpdateWithCode, h]
  refine ⟨?_, ?_, ?_⟩
  · simp [BevyGlicol.glicolUpdateWithCode, hup]
  · intro nodeCount gcNodes
    simp [TuiApp.appUpdateAudioCode, hup]
  · intro α β conv step dataLen st
    have : (BevyGlicol.glicolUpdateWithCode compile e code).1 = e := by
      simp [BevyGlicol.glicolUpdateWithCode, hup]
    rw [this]

/-- Witness for `patch_failure_is_local` at a concrete failing compile. -/
theorem patch_failure_is_local_witness :
    BevyGlicol.glicolUpdateWithCode (fun _ => Except.error "parse error")
        (⟨0, 0⟩ : EngineM Nat Nat) "out: nonsense" =
      (⟨0, 0⟩, ["Failed to update Glicol code: parse error"]) :=
  (patch_failure_is_local Nat Nat (fun _ => Except.error "parse error")
    ⟨0, 0⟩ "out: nonsense" "parse error" rfl).1

namespace TuiGlicol

variable {α β ε : Type}

/-- The compile-time block size of the tui crate,
`const BLOCK_SIZE: usize = 128;` (tui_glicol/src/app.rs:32). -/
def BLOCK_SIZE : Nat := 128

/-- The `write_samples` closure (app.rs:380-386), identical to the bevy
one: for `chan in 0..channels` store `T::from_sample(block[chan][i])`
at `data[sample_i * channels + chan]`, with `channels = 2`
(app.rs:358 ignores the device-config channel count the same way). -/
def writeSamples (conv : α → β) (block : Nat → Nat → α) (sampleI i : Nat) :
    List (Nat × β) :=
  (List.range 2).map (fun chan => (sampleI * 2 + chan, conv (block chan i)))

/-- Frame-copy runs of the app.rs callback (drain loop app.rs:395-398,
production copies app.rs:406-409 and 412-415). -/
def copyFrames (conv : α → β) (block : Nat → Nat → α) :
    Nat → Nat → Nat → List (Nat × β)
  | writes, start, 0 => []
  | writes, start, count + 1 =>
      writeSamples conv block writes start ++
        copyFrames conv block (writes + 1) (start + 1) count

/-- The production `while writes < block_step` loop (app.rs:401-422),
fuelled exactly like the bevy transcription.  The only source-level
difference to prelude.rs is `engine_clone.lock().unwrap()` (std mutex)
in place of `engine_clone.lock()` (parking_lot); in the sequential
model both are the successful acquisition `produce env`. -/
def prodLoopF (conv : α → β) (produce : ε → (Nat → Nat → α) × ε)
    (blockSize blockStep : Nat) :
    Nat → Nat → ε → (Nat → Nat → α) → Option (ProdResult α β ε)
  | 0, _, _, _ => none
  | fuel + 1, writes, env, prev =>
      if writes < blockStep then
        let pr := produce env
        if writes + blockSize ≤ blockStep then
          match prodLoopF conv produce blockSize blockStep fuel
              (writes + blockSize) pr.2 prev with
          | none => none
          | some r =>
              some ⟨copyFrames conv pr.1 writes 0 blockSize ++ r.stores,
                r.prev, r.pos, r.env, r.calls + 1⟩
        else
          some ⟨copyFrames conv pr.1 writes 0 (blockStep - writes),
            pr.1, blockStep - writes, pr.2, 1⟩
      else
        some ⟨[], prev, blockSize, env, 0⟩

/-- One audio callback invocation of the tui crate (app.rs:377-423),
ignoring bounds; transcribed independently from app.rs. -/
def runCallbackCore (conv : α → β) (produce : ε → (Nat → Nat → α) × ε)
    (blockSize : Nat) (env : ε) (dataLen : Nat) (st : CbState α) :
    CbResult α β ε :=
  let blockStep := dataLen / 2
  let drain := copyFrames conv st.prevBlock 0 st.prevBlockPos
    (blockSize - st.prevBlockPos)
  let writes := blockSize - st.prevBlockPos
  match prodLoopF conv produce blockSize blockStep (blockStep + 1) writes env
      st.prevBlock with
  | some r => ⟨drain ++ r.stores, ⟨r.prev, r.pos⟩, r.env, r.calls⟩
  | none => ⟨drain, ⟨st.prevBlock, blockSize⟩, env, 0⟩

/-- One tui callback invocation with Rust's bounds checking made
explicit, as for the bevy site. -/
def runCallback (conv : α → β) (produce : ε → (Nat → Nat → α) × ε)
    (blockSize : Nat) (env : ε) (dataLen : Nat) (st : CbState α) :
    Option (CbResult α β ε) :=
  let r := runCallbackCore conv produce blockSize env dataLen st
  if r.stores.all (fun s => decide (s.1 < dataLen)) then some r else none

end TuiGlicol

/-- C10: the two callback-construction sites implement the same
rebuffering function.  For every block size, engine, conversion,
buffer length and carry-over state, the bevy callback
(prelude.rs:73-119) and the tui callback (app.rs:377-423) emit the
same stores in the same order, leave the same carry-over block and
cursor and engine state, make the same number of `next_block` calls,
and panic on exactly the same inputs; the sites differ only in the
mutex flavour used to acquire the engine lock, which the sequential
model renders identically.  The two `BLOCK_SIZE` constants also agree. -/
theorem callback_sites_equivalent :
    (∀ (α β ε : Type) (conv : α → β) (produce : ε → (Nat → Nat → α) × ε)
        (blockSize : Nat) (env : ε) (dataLen : Nat) (st : CbState α),
      BevyGlicol.runCallbackCore conv produce blockSize env dataLen st =
        TuiGlicol.runCallbackCore conv produce blockSize env dataLen st ∧
      BevyGlicol.runCallback conv produce blockSize env dataLen st =
        TuiGlicol.runCallback conv produce blockSize env dataLen st) ∧
    BevyGlicol.BLOCK_SIZE = TuiGlicol.BLOCK_SIZE := by
  have hcf : ∀ (α β : Type) (conv : α → β) (block : Nat → Nat → α) (w s c : Nat),
      BevyGlicol.copyFrames conv block w s c = TuiGlicol.copyFrames conv block w s c := by
    intro α β conv block w s c
    induction c generalizing w s with
    | zero => rfl
    | succ c ih =>
        simp only [BevyGlicol.copyFrames, TuiGlicol.copyFrames, ih]
        rfl
  have hp : ∀ (α β ε : Type) (conv : α → β) (produce : ε → (Nat → Nat → α) × ε)
      (blockSize blockStep fuel writes : Nat) (env : ε) (prev : Nat → Nat → α),
      BevyGlicol.prodLoopF conv produce blockSize blockStep fuel writes env prev =
        TuiGlicol.prodLoopF conv produce blockSize blockStep fuel writes env prev := by
    intro α β ε conv produce blockSize blockStep fuel
    induction fuel with
    | zero => intro writes env prev; rfl
    | succ fuel ih =>
        intro writes env prev
        simp only [BevyGlicol.prodLoopF, TuiGlicol.prodLoopF, ih, hcf]
  refine ⟨fun α β ε conv produce blockSize env dataLen st => ⟨?_, ?_⟩, rfl⟩
  · simp only [BevyGlicol.runCallbackCore, TuiGlicol.runCallbackCore, hp, hcf]
  · simp only [BevyGlicol.runCallback, BevyGlicol.runCallbackCore,
      TuiGlicol.runCallback, TuiGlicol.runCallbackCore, hp, hcf]
